import Mathlib

/-!
Verification of the ts-simple-crud user persistence and API layer.

Shallow embedding of the repository's record store (SQLite `users` table),
persistence service (`src/models/UserService.ts`) and HTTP resource layer
(the Express router in `src/routes/userRoutes`), together with proofs of
the spec's testable properties.

The store is modelled as a list of rows plus an AUTOINCREMENT counter;
timestamps are abstract naturals supplied to each inserting operation as
the store's CURRENT_TIMESTAMP default.  SQL statement strings from the
source are translated into their SQLite semantics on the `users` table.
-/

namespace TsSimpleCrud

/-- A row of the `users` table: `id INTEGER`, `name TEXT NOT NULL`,
`email TEXT UNIQUE NOT NULL`, `created_at DATETIME DEFAULT CURRENT_TIMESTAMP`. -/
structure Row where
  id : Int
  name : String
  email : String
  created_at : Nat
deriving DecidableEq

/-- The record store: the rows of the `users` table together with the
AUTOINCREMENT counter that assigns the next id. -/
structure Store where
  rows : List Row
  nextId : Int
deriving DecidableEq

/-- The freshly created empty `users` table: no rows, ids start at 1. -/
def Store.init : Store := ⟨[], 1⟩

/-- The domain record of `src/models/User.ts`:
`id?: number; name: string; email: string; created_at?: string` —
`id` and `created_at` are optional fields. -/
structure User where
  id : Option Int
  name : String
  email : String
  created_at : Option Nat
deriving DecidableEq

/-- Model of `UserInput` in `src/models/User.ts`: `name: string; email: string`. -/
structure UserInput where
  name : String
  email : String
deriving DecidableEq

/-- An unvalidated JSON request body (`req.body`): either field may be
absent (`none`) or present with any string value. -/
structure ReqBody where
  name : Option String
  email : Option String
deriving DecidableEq

/-- Errors thrown by the modelled JavaScript runtime: the SQLite UNIQUE
constraint violation (message contains "UNIQUE constraint failed"), a SQL
syntax error, and the TypeError raised when an undefined import is called. -/
inductive JsError where
  | uniqueConstraintFailed
  | sqlSyntaxError
  | notAFunction
deriving DecidableEq

/-- Models `error.message?.includes("UNIQUE constraint failed")` from the
router's catch blocks. -/
def JsError.messageIncludesUnique : JsError → Bool
  | .uniqueConstraintFailed => true
  | .sqlSyntaxError => false
  | .notAFunction => false

/-- A database row viewed as the domain record returned by `db.get` /
`db.all`: every column is present. -/
def Row.toUser (r : Row) : User := ⟨some r.id, r.name, r.email, some r.created_at⟩

/-- Semantics of `INSERT INTO users (name, email) VALUES (?, ?)` at timestamp `now`:
fails with the UNIQUE constraint error when the email is already present,
otherwise appends a row with the next AUTOINCREMENT id and the default
`created_at`, and returns `lastID`. -/
def dbInsert (now : Nat) (name email : String) (st : Store) :
    Except JsError (Int × Store) :=
  if st.rows.any (fun r => r.email == email) then
    .error .uniqueConstraintFailed
  else
    .ok (st.nextId, ⟨st.rows ++ [⟨st.nextId, name, email, now⟩], st.nextId + 1⟩)

/-- Semantics of `UPDATE users SET name = ?, email = ? WHERE id = ?` with the id bound
from JavaScript: binding `NaN` (modelled `none`) compares as NULL and
matches no row.  If a row with the id exists and the new email equals the
email of a different row, the UNIQUE constraint fires and nothing changes;
otherwise the matching rows receive the new name and email. -/
def dbUpdate (uid : Option Int) (name email : String) (st : Store) :
    Except JsError Store :=
  match uid with
  | none => .ok st
  | some i =>
    if st.rows.any (fun r => r.id == i) then
      if st.rows.any (fun r => r.id != i && r.email == email) then
        .error .uniqueConstraintFailed
      else
        .ok ⟨st.rows.map
          (fun r => if r.id == i then ⟨r.id, name, email, r.created_at⟩ else r),
          st.nextId⟩
    else .ok st

/-- Semantics of `SELECT * FROM users WHERE id = ?`: first matching row, if any;
a `NaN` binding (`none`) compares as NULL and matches nothing. -/
def dbGet (uid : Option Int) (st : Store) : Option Row :=
  match uid with
  | none => none
  | some i => st.rows.find? (fun r => r.id == i)

/-- Descending insertion by `created_at` (ties keep earlier-listed first). -/
def insertDesc (r : Row) : List Row → List Row
  | [] => [r]
  | x :: xs => if x.created_at < r.created_at then r :: x :: xs else x :: insertDesc r xs

/-- Insertion sort of rows by `created_at`, descending. -/
def sortDesc : List Row → List Row
  | [] => []
  | r :: rs => insertDesc r (sortDesc rs)

/-- Semantics of `SELECT * FROM users ORDER BY created_at DESC`. -/
def dbAll (st : Store) : List Row := sortDesc st.rows

/-- Model of `getAllUsers` in UserService.ts. -/
def getAllUsers (st : Store) : List User := (dbAll st).map Row.toUser

/-- Model of `getUserById` in UserService.ts. -/
def getUserById (uid : Option Int) (st : Store) : Option User :=
  (dbGet uid st).map Row.toUser

/-- Model of `createUser` in UserService.ts: runs the INSERT and returns
`\x7b id: result.lastID, ...user \x7d` — note that no `created_at` field is
present in the returned object (the service does not re-fetch the row). -/
def createUser (now : Nat) (input : UserInput) (st : Store) :
    Except JsError (User × Store) :=
  match dbInsert now input.name input.email st with
  | .error e => .error e
  | .ok (lastID, st1) => .ok (⟨some lastID, input.name, input.email, none⟩, st1)

/-- Model of `updateUser` in UserService.ts: runs the UPDATE, then re-reads the row
by id via `getUserById`. -/
def updateUser (uid : Option Int) (input : UserInput) (st : Store) :
    Except JsError (Option User × Store) :=
  match dbUpdate uid input.name input.email st with
  | .error e => .error e
  | .ok st1 => .ok (getUserById uid st1, st1)

/-- The `deleteUser` function is commented out in UserService.ts (lines 40-44), so the
module has no such export and the router's imported binding is undefined. -/
def deleteUserExport :
    Option (Option Int → Store → Except JsError (Bool × Store)) := none

/-- JavaScript `parseInt(s)` restricted to its decimal fragment: skip
leading whitespace, optional sign, then the longest prefix of decimal
digits; `none` models the `NaN` result when no digit follows.  (The hex
`0x` form differs only on inputs that parse to a number in both models,
which no claim depends on.) -/
def jsParseInt (s : String) : Option Int :=
  let cs := s.data.dropWhile Char.isWhitespace
  let signed : Int × List Char :=
    match cs with
    | '-' :: r => (-1, r)
    | '+' :: r => (1, r)
    | r => (1, r)
  let ds := signed.2.takeWhile Char.isDigit
  if ds.isEmpty then none
  else some (signed.1 * (ds.foldl (fun a c => a * 10 + (c.toNat - 48)) 0 : Nat))

/-- Truthiness of an optional string field: `undefined` and `""` are falsy. -/
def jsTruthyStr : Option String → Bool
  | none => false
  | some s => s != ""

/-- The router's validation `!userInput.name || !userInput.email`, negated. -/
def bodyValid (b : ReqBody) : Bool := jsTruthyStr b.name && jsTruthyStr b.email

/-- An HTTP response body: a JSON error payload, a single record, a record
list, or the empty body of a 204. -/
inductive RespBody where
  | errJson (msg : String)
  | user (u : User)
  | users (l : List User)
  | empty
deriving DecidableEq

/-- Outcome of one request: status code, body, and the store afterwards. -/
structure HttpResult where
  status : Nat
  body : RespBody
  store : Store
deriving DecidableEq

/-- Route `router.get("/")`: list all users. -/
def routerGetAll (st : Store) : HttpResult := ⟨200, .users (getAllUsers st), st⟩

/-- Route `router.get("/:id")`: parse the id, look the user up, 404 when absent. -/
def routerGetById (idParam : String) (st : Store) : HttpResult :=
  match getUserById (jsParseInt idParam) st with
  | none => ⟨404, .errJson "User not found", st⟩
  | some u => ⟨200, .user u, st⟩

/-- Route `router.post("/")`: validate the body, create the user, map the UNIQUE
constraint error to 409 and any other failure to 500. -/
def routerPost (now : Nat) (b : ReqBody) (st : Store) : HttpResult :=
  if bodyValid b then
    match createUser now ⟨b.name.getD "", b.email.getD ""⟩ st with
    | .ok (u, st1) => ⟨201, .user u, st1⟩
    | .error e =>
      if e.messageIncludesUnique then ⟨409, .errJson "Email already exists", st⟩
      else ⟨500, .errJson "Failed to create user", st⟩
  else ⟨400, .errJson "Name and email are required", st⟩

/-- Route `router.put("/:id")`: validate the body, update, 404 when the re-read
finds nothing, 409 on the UNIQUE constraint error, 500 otherwise. -/
def routerPut (idParam : String) (b : ReqBody) (st : Store) : HttpResult :=
  if bodyValid b then
    match updateUser (jsParseInt idParam) ⟨b.name.getD "", b.email.getD ""⟩ st with
    | .ok (none, st1) => ⟨404, .errJson "User not found", st1⟩
    | .ok (some u, st1) => ⟨200, .user u, st1⟩
    | .error e =>
      if e.messageIncludesUnique then ⟨409, .errJson "Email already exists", st⟩
      else ⟨500, .errJson "Failed to update user", st⟩
  else ⟨400, .errJson "Name and email are required", st⟩

/-- Route `router.delete("/:id")`: calls the imported `deleteUser`, which is
undefined because UserService.ts comments the function out; the call throws
a TypeError, caught by the handler's catch block, whose message does not
contain "UNIQUE constraint failed". -/
def routerDelete (idParam : String) (st : Store) : HttpResult :=
  match deleteUserExport with
  | none => ⟨500, .errJson "Failed to delete user", st⟩
  | some f =>
    match f (jsParseInt idParam) st with
    | .error _ => ⟨500, .errJson "Failed to delete user", st⟩
    | .ok (false, st1) => ⟨404, .errJson "User not found", st1⟩
    | .ok (true, st1) => ⟨204, .empty, st1⟩

/-- SQLite keywords that can begin a column constraint (the fragment
relevant to the statement in connectDb). -/
def constraintStart (w : String) : Bool :=
  w == "CONSTRAINT" || w == "PRIMARY" || w == "NOT" || w == "UNIQUE" ||
  w == "CHECK" || w == "DEFAULT" || w == "COLLATE" || w == "REFERENCES" ||
  w == "GENERATED" || w == "AS"

/-- Keywords without ID-fallback in SQLite's grammar (fragment): they can
never be absorbed into a multi-word type name.  `AUTOINCREMENT` is one;
`KEY` is not (it falls back to a plain identifier). -/
def reservedWord (w : String) : Bool := w == "AUTOINCREMENT"

/-- Column-constraint grammar, restricted to the forms the statement uses:
`PRIMARY KEY` optionally followed by `AUTOINCREMENT`, `NOT NULL`, `UNIQUE`
and `DEFAULT value`.  `AUTOINCREMENT` is accepted only directly after
`PRIMARY KEY`; any other leading token is a syntax error. -/
def parseColumnConstraints : List String → Bool
  | [] => true
  | "PRIMARY" :: "KEY" :: "AUTOINCREMENT" :: rest => parseColumnConstraints rest
  | "PRIMARY" :: "KEY" :: rest => parseColumnConstraints rest
  | "NOT" :: "NULL" :: rest => parseColumnConstraints rest
  | "UNIQUE" :: rest => parseColumnConstraints rest
  | "DEFAULT" :: _ :: rest => parseColumnConstraints rest
  | _ => false

/-- A column definition is accepted when, after the words absorbed into the
(possibly multi-word) type name — any word that is neither a constraint
keyword nor reserved — the remainder parses as column constraints. -/
def columnDefOk (tokens : List String) : Bool :=
  parseColumnConstraints
    (tokens.dropWhile (fun w => !constraintStart w && !reservedWord w))

/-- The column definitions of the `CREATE TABLE IF NOT EXISTS users`
statement in database.ts lines 12-19, tokenized verbatim — note the
misspelling `PROMARU` where `PRIMARY` was intended. -/
def connectDbColumnDefs : List (String × List String) :=
  [("id", ["INTEGER", "PROMARU", "KEY", "AUTOINCREMENT"]),
   ("name", ["TEXT", "NOT", "NULL"]),
   ("email", ["TEXT", "UNIQUE", "NOT", "NULL"]),
   ("created_at", ["DATETIME", "DEFAULT", "CURRENT_TIMESTAMP"])]

/-- Model of `connectDb` in database.ts: opens the database file (`existing` is the
table's state when a previous run created it, `none` for a fresh file) and
executes the CREATE TABLE IF NOT EXISTS statement: when the statement
parses, the table is created only when absent (idempotent); a syntax error
makes `db.exec` reject and `connectDb` fail. -/
def connectDb (existing : Option Store) : Except JsError Store :=
  if connectDbColumnDefs.all (fun cd => columnDefOk cd.2) then
    .ok (existing.getD Store.init)
  else .error .sqlSyntaxError

/-- One mutating HTTP request against the API, as fielded by the router:
the POST, PUT and DELETE routes. -/
inductive Op where
  | create (now : Nat) (b : ReqBody)
  | update (idParam : String) (b : ReqBody)
  | delete (idParam : String)

/-- The store after the router fields one request. -/
def applyOp (st : Store) : Op → Store
  | .create now b => (routerPost now b st).store
  | .update s b => (routerPut s b st).store
  | .delete s => (routerDelete s st).store

/-- The store reached from the freshly initialized empty table by a
sequence of requests. -/
def runOps (ops : List Op) : Store := ops.foldl applyOp Store.init

/-- Structural invariant of the users table: the AUTOINCREMENT counter is
positive and exceeds every id, and ids are pairwise distinct. -/
def storeInv (st : Store) : Prop :=
  0 < st.nextId ∧ (∀ r ∈ st.rows, r.id < st.nextId) ∧
    st.rows.Pairwise (fun a b => a.id ≠ b.id)

/-- The email-uniqueness invariant: no two rows share an email. -/
def emailsUnique (st : Store) : Prop :=
  st.rows.Pairwise (fun a b => a.email ≠ b.email)

instance (st : Store) : Decidable (storeInv st) := by
  unfold storeInv; infer_instance

instance (st : Store) : Decidable (emailsUnique st) := by
  unfold emailsUnique; infer_instance

/-- From a failed `any` check: no row matches the Boolean predicate. -/
theorem no_row_of_any_false {l : List Row} {p : Row → Bool}
    (h : l.any p = false) : ∀ r ∈ l, p r = false := by
  intro r hr
  have := List.any_eq_false.mp h r hr
  simpa using this

/-- C10 — a GET-by-id request whose id path parameter does not begin with a
parseable integer: `parseInt` yields NaN, the bound NULL matches no row, and
the route answers 404 "User not found" with the store unchanged. -/
theorem getById_unparseable_is_404 (s : String) (st : Store)
    (h : jsParseInt s = none) :
    routerGetById s st = ⟨404, .errJson "User not found", st⟩ := by
  simp [routerGetById, getUserById, dbGet, h]

/-- Witness for C10 at the concrete path parameter "abc". -/
theorem getById_unparseable_is_404_witness :
    jsParseInt "abc" = none ∧
      routerGetById "abc" Store.init =
        ⟨404, .errJson "User not found", Store.init⟩ :=
  ⟨by decide, getById_unparseable_is_404 "abc" Store.init (by decide)⟩

/-- C2 — what the code actually does on every DELETE request: the router
calls the `deleteUser` import, which is `undefined` because UserService.ts
comments the function out (lines 40-44), so the handler's catch block
answers 500 for every id and every store; no request ever reaches 204 or
404, contradicting the claim that delete is fully supported. -/
theorem routerDelete_always_500 (s : String) (st : Store) :
    routerDelete s st = ⟨500, .errJson "Failed to delete user", st⟩ := rfl

/-- C8 — what the code actually does at initialization: the CREATE TABLE
statement misspells PRIMARY as PROMARU, so AUTOINCREMENT does not follow
PRIMARY KEY and SQLite rejects the statement; `connectDb` therefore fails
on a fresh file and on every re-run, and never creates the table. -/
theorem connectDb_rejects (existing : Option Store) :
    connectDb existing = .error .sqlSyntaxError := rfl

/-- C7 — a create or update request whose body misses the name field or the
email field, or carries it empty, is answered 400 by the HTTP layer with
the store unchanged (the persistence service is never invoked). -/
theorem invalid_body_is_400 (now : Nat) (idParam : String) (b : ReqBody)
    (st : Store)
    (h : b.name = none ∨ b.name = some "" ∨ b.email = none ∨ b.email = some "") :
    routerPost now b st = ⟨400, .errJson "Name and email are required", st⟩ ∧
      routerPut idParam b st =
        ⟨400, .errJson "Name and email are required", st⟩ := by
  have hv : bodyValid b = false := by
    rcases h with h | h | h | h <;> simp [bodyValid, jsTruthyStr, h]
  exact ⟨by simp [routerPost, hv], by simp [routerPut, hv]⟩

/-- Witness for C7: body with no name field and a non-empty email. -/
theorem invalid_body_is_400_witness :
    ((⟨none, some "b@x"⟩ : ReqBody).name = none ∨
      (⟨none, some "b@x"⟩ : ReqBody).name = some "" ∨
      (⟨none, some "b@x"⟩ : ReqBody).email = none ∨
      (⟨none, some "b@x"⟩ : ReqBody).email = some "") ∧
    (routerPost 7 ⟨none, some "b@x"⟩ Store.init =
        ⟨400, .errJson "Name and email are required", Store.init⟩ ∧
      routerPut "1" ⟨none, some "b@x"⟩ Store.init =
        ⟨400, .errJson "Name and email are required", Store.init⟩) :=
  ⟨Or.inl rfl, invalid_body_is_400 7 "1" ⟨none, some "b@x"⟩ Store.init (Or.inl rfl)⟩

/-- C1, counterexample — on the empty store, create at timestamp 5 returns
a record with NO `created_at` field (the service builds
`\x7b id: lastID, ...user \x7d` and never re-fetches), while the subsequent
get-by-id returns the stored row with `created_at = 5`: the two records are
not equal, and the returned record carries no timestamp. -/
theorem create_then_get_not_equal :
    createUser 5 ⟨"Ann", "ann@x.com"⟩ Store.init =
      .ok (⟨some 1, "Ann", "ann@x.com", none⟩,
        ⟨[⟨1, "Ann", "ann@x.com", 5⟩], 2⟩) ∧
    (⟨some 1, "Ann", "ann@x.com", none⟩ : User).created_at = none ∧
    getUserById (some 1) ⟨[⟨1, "Ann", "ann@x.com", 5⟩], 2⟩ =
      some ⟨some 1, "Ann", "ann@x.com", some 5⟩ ∧
    (⟨some 1, "Ann", "ann@x.com", none⟩ : User) ≠
      ⟨some 1, "Ann", "ann@x.com", some 5⟩ :=
  ⟨rfl, rfl, rfl, by decide⟩

/-- C1, amended — for an input whose email is not already present, create
succeeds and returns a record with the positive store-assigned id and the
input's name and email but no `created_at` field; the subsequent get by the
returned id yields the stored row, whose `created_at` is the store-set
creation time. -/
theorem create_fresh_email_ok (now : Nat) (input : UserInput) (st : Store)
    (hinv : storeInv st)
    (hfresh : ∀ r ∈ st.rows, r.email ≠ input.email) :
    ∃ u st1, createUser now input st = .ok (u, st1) ∧
      u.id = some st.nextId ∧ 0 < st.nextId ∧
      u.name = input.name ∧ u.email = input.email ∧ u.created_at = none ∧
      getUserById u.id st1 =
        some ⟨some st.nextId, input.name, input.email, some now⟩ := by
  have hany : st.rows.any (fun r => r.email == input.email) = false := by
    rw [List.any_eq_false]
    intro r hr
    simpa using hfresh r hr
  refine ⟨⟨some st.nextId, input.name, input.email, none⟩,
    ⟨st.rows ++ [⟨st.nextId, input.name, input.email, now⟩], st.nextId + 1⟩,
    ?_, rfl, hinv.1, rfl, rfl, rfl, ?_⟩
  · simp [createUser, dbInsert, hany]
  · have h1 : st.rows.find? (fun r => r.id == st.nextId) = none := by
      rw [List.find?_eq_none]
      intro r hr
      have hlt := hinv.2.1 r hr
      simp only [beq_iff_eq]
      omega
    simp [getUserById, dbGet, List.find?_append, h1, Row.toUser]

/-- Witness for the amended C1 at a concrete input on the empty store. -/
theorem create_fresh_email_ok_witness :
    storeInv Store.init ∧ (∀ r ∈ Store.init.rows, r.email ≠ "a@x") ∧
    (∃ u st1, createUser 5 ⟨"Ann", "a@x"⟩ Store.init = .ok (u, st1) ∧
      u.id = some Store.init.nextId ∧ 0 < Store.init.nextId ∧
      u.name = "Ann" ∧ u.email = "a@x" ∧ u.created_at = none ∧
      getUserById u.id st1 =
        some ⟨some Store.init.nextId, "Ann", "a@x", some 5⟩) :=
  ⟨by decide, by decide,
    create_fresh_email_ok 5 ⟨"Ann", "a@x"⟩ Store.init (by decide) (by decide)⟩

/-- In a list of rows with pairwise-distinct emails, if some row carries
email `e` then exactly one does. -/
theorem filter_email_length_one {l : List Row} {e : String}
    (hp : l.Pairwise (fun a b => a.email ≠ b.email))
    (hex : ∃ r ∈ l, r.email = e) :
    (l.filter (fun r => r.email == e)).length = 1 := by
  induction l with
  | nil => simp at hex
  | cons a t ih =>
    rcases List.pairwise_cons.mp hp with ⟨ha, ht⟩
    rcases hex with ⟨r, hr, hre⟩
    rcases List.mem_cons.mp hr with h | h
    · rw [h] at hre
      have hpa : (a.email == e) = true := by simp [hre]
      have hnone : t.filter (fun r2 => r2.email == e) = [] := by
        rw [List.filter_eq_nil_iff]
        intro b hb
        simp only [beq_iff_eq]
        exact fun hh => ha b hb (hre.trans hh.symm)
      simp [List.filter_cons, hpa, hnone]
    · have hane : (a.email == e) = false := by
        simp only [beq_eq_false_iff_ne]
        exact fun hh => ha r h (hh.trans hre.symm)
      simp [List.filter_cons, hane, ih ht ⟨r, h, hre⟩]

/-- C4 — creating a second record with an already-present email: the INSERT
fires the UNIQUE constraint, the router maps the error message to 409, the
store is returned unchanged, and (emails being unique) it still holds
exactly one record with that email. -/
theorem duplicate_email_post_409 (now : Nat) (n e : String) (st : Store)
    (hn : n ≠ "") (he : e ≠ "")
    (hu : emailsUnique st) (hex : ∃ r ∈ st.rows, r.email = e) :
    routerPost now ⟨some n, some e⟩ st =
      ⟨409, .errJson "Email already exists", st⟩ ∧
    (st.rows.filter (fun r => r.email == e)).length = 1 := by
  constructor
  · have hv : bodyValid ⟨some n, some e⟩ = true := by
      simp [bodyValid, jsTruthyStr, hn, he]
    have hany : st.rows.any (fun r => r.email == e) = true := by
      rw [List.any_eq_true]
      rcases hex with ⟨r, hr, hre⟩
      exact ⟨r, hr, by simp [hre]⟩
    simp [routerPost, hv, createUser, dbInsert, hany,
      JsError.messageIncludesUnique]
  · exact filter_email_length_one hu hex

/-- Witness for C4: a store holding Ann, then a create reusing her email. -/
theorem duplicate_email_post_409_witness :
    ("Bob" ≠ "" ∧ "a@x" ≠ "" ∧
      emailsUnique ⟨[⟨1, "Ann", "a@x", 5⟩], 2⟩ ∧
      ∃ r ∈ (Store.mk [⟨1, "Ann", "a@x", 5⟩] 2).rows, r.email = "a@x") ∧
    (routerPost 9 ⟨some "Bob", some "a@x"⟩ ⟨[⟨1, "Ann", "a@x", 5⟩], 2⟩ =
        ⟨409, .errJson "Email already exists", ⟨[⟨1, "Ann", "a@x", 5⟩], 2⟩⟩ ∧
      ((Store.mk [⟨1, "Ann", "a@x", 5⟩] 2).rows.filter
          (fun r => r.email == "a@x")).length = 1) :=
  ⟨⟨by decide, by decide, by decide, by decide⟩,
    duplicate_email_post_409 9 "Bob" "a@x" ⟨[⟨1, "Ann", "a@x", 5⟩], 2⟩
      (by decide) (by decide) (by decide) (by decide)⟩

/-- C9 — the store-level UPDATE raises a uniqueness violation only when
the new email equals the email of a different existing row; in particular,
updating an existing row while keeping its own email (changing only the
name) succeeds without a DuplicateEmail error. -/
theorem update_unique_violation_only_on_collision (st : Store) (i : Int)
    (n : String) (hu : emailsUnique st) :
    (∀ e : String, (∃ err, dbUpdate (some i) n e st = .error err) →
       ∃ r ∈ st.rows, r.id ≠ i ∧ r.email = e) ∧
    (∀ r ∈ st.rows, r.id = i →
       ∃ st1, dbUpdate (some i) n r.email st = .ok st1) := by
  constructor
  · rintro e ⟨err, herr⟩
    simp only [dbUpdate] at herr
    split at herr
    · split at herr
      · rename_i hclash
        rcases List.any_eq_true.mp hclash with ⟨r, hr, hp⟩
        refine ⟨r, hr, ?_⟩
        simpa using hp
      · exact absurd herr (by simp)
    · exact absurd herr (by simp)
  · intro r hr hri
    have hanyt : st.rows.any (fun r2 => r2.id == i) = true := by
      rw [List.any_eq_true]
      exact ⟨r, hr, by simp [hri]⟩
    have hclash :
        st.rows.any (fun r2 => r2.id != i && r2.email == r.email) = false := by
      rw [List.any_eq_false]
      intro r2 hr2
      simp only [Bool.and_eq_true, bne_iff_ne, beq_iff_eq, not_and]
      intro hid heq
      have hne : r ≠ r2 := fun hh => hid (hh ▸ hri)
      exact (hu.forall (fun a b h => h.symm) hr hr2 hne) heq.symm
    refine ⟨⟨st.rows.map (fun r2 =>
      if r2.id == i then ⟨r2.id, n, r.email, r2.created_at⟩ else r2),
      st.nextId⟩, ?_⟩
    simp [dbUpdate, hanyt, hclash]

/-- Witness for C9: a two-row store; updating row 1 keeping its email. -/
theorem update_unique_violation_only_on_collision_witness :
    emailsUnique ⟨[⟨1, "Ann", "a@x", 5⟩, ⟨2, "Bob", "b@x", 6⟩], 3⟩ ∧
    ((∀ e : String,
        (∃ err, dbUpdate (some 1) "Anna" e
          ⟨[⟨1, "Ann", "a@x", 5⟩, ⟨2, "Bob", "b@x", 6⟩], 3⟩ = .error err) →
        ∃ r ∈ (Store.mk [⟨1, "Ann", "a@x", 5⟩, ⟨2, "Bob", "b@x", 6⟩] 3).rows,
          r.id ≠ 1 ∧ r.email = e) ∧
      (∀ r ∈ (Store.mk [⟨1, "Ann", "a@x", 5⟩, ⟨2, "Bob", "b@x", 6⟩] 3).rows,
        r.id = 1 →
        ∃ st1, dbUpdate (some 1) "Anna" r.email
          ⟨[⟨1, "Ann", "a@x", 5⟩, ⟨2, "Bob", "b@x", 6⟩], 3⟩ = .ok st1)) :=
  ⟨by decide,
    update_unique_violation_only_on_collision
      ⟨[⟨1, "Ann", "a@x", 5⟩, ⟨2, "Bob", "b@x", 6⟩], 3⟩ 1 "Anna" (by decide)⟩

/-- C5 — update's frame: when a row with the id exists and the new email
collides with no other row (the case where the update takes effect rather
than raising DuplicateEmail), update rewrites only that row's name and
email (its id and `created_at` survive, every other id reads back
unchanged, and the row count and counter are untouched), and the service
returns the re-read record; updating a non-existent id — unconditionally,
whatever the posted email — returns absent and changes no state. -/
theorem update_frame (st : Store) (i : Int) (input : UserInput) :
    (∀ r, dbGet (some i) st = some r →
       (∀ r2 ∈ st.rows, r2.id = i ∨ r2.email ≠ input.email) →
       ∃ st1, updateUser (some i) input st =
           .ok (some ⟨some r.id, input.name, input.email, some r.created_at⟩,
             st1) ∧
         dbGet (some i) st1 = some ⟨r.id, input.name, input.email, r.created_at⟩ ∧
         st1.nextId = st.nextId ∧ st1.rows.length = st.rows.length ∧
         (∀ j : Int, j ≠ i → dbGet (some j) st1 = dbGet (some j) st)) ∧
    (dbGet (some i) st = none → updateUser (some i) input st = .ok (none, st)) := by
  constructor
  · intro r hget hnc
    simp only [dbGet] at hget
    have hpr := List.find?_some hget
    have hri : r.id = i := by simpa using hpr
    have hanyt : st.rows.any (fun r2 => r2.id == i) = true := by
      rw [List.any_eq_true]
      exact ⟨r, List.mem_of_find?_eq_some hget, hpr⟩
    have hclash :
        st.rows.any (fun r2 => r2.id != i && r2.email == input.email) = false := by
      rw [List.any_eq_false]
      intro r2 hr2
      rcases hnc r2 hr2 with h | h <;> simp [h]
    set f := fun r2 : Row =>
      if r2.id == i then (⟨r2.id, input.name, input.email, r2.created_at⟩ : Row)
      else r2 with hf
    have hcomp : ∀ j : Int,
        ((fun r2 : Row => r2.id == j) ∘ f) = fun r2 : Row => r2.id == j := by
      intro j
      funext r2
      by_cases h : r2.id = i <;> simp [hf, h]
    have hmap : (st.rows.map f).find? (fun r2 => r2.id == i) = some (f r) := by
      rw [List.find?_map, hcomp i, hget]
      rfl
    have hfr : f r = ⟨r.id, input.name, input.email, r.created_at⟩ := by
      simp [hf, hri]
    have hupd : dbUpdate (some i) input.name input.email st =
        .ok ⟨st.rows.map f, st.nextId⟩ := by
      simp [dbUpdate, hanyt, hclash, hf]
    have hgu : getUserById (some i) ⟨st.rows.map f, st.nextId⟩ =
        some ⟨some r.id, input.name, input.email, some r.created_at⟩ := by
      simp only [getUserById, dbGet]
      rw [hmap, hfr]
      rfl
    refine ⟨⟨st.rows.map f, st.nextId⟩, ?_, ?_, rfl, by simp, ?_⟩
    · simp only [updateUser, hupd]
      rw [hgu]
    · simp only [dbGet]
      rw [hmap, hfr]
    · intro j hj
      simp only [dbGet]
      rw [List.find?_map, hcomp j]
      cases hfind : st.rows.find? (fun r2 => r2.id == j) with
      | none => rfl
      | some a =>
        have hpa0 := List.find?_some hfind
        have hpa : a.id = j := by simpa using hpa0
        have hfa : f a = a := by
          have : ¬a.id = i := by rw [hpa]; exact hj
          simp [hf, this]
        simp [hfa]
  · intro hget
    simp only [dbGet] at hget
    have hanyf : st.rows.any (fun r2 => r2.id == i) = false := by
      rw [List.any_eq_false]
      intro r2 hr2
      simpa using List.find?_eq_none.mp hget r2 hr2
    simp [updateUser, dbUpdate, hanyf, getUserById, dbGet, hget]

/-- Witness for C5 on a two-row store: updating the existing id 1 to a
fresh email exercises the frame branch with both of its hypotheses
discharged, and updating the absent id 7 — posting an email already held
by row 1 — exercises the unconditional non-existent-id branch. -/
theorem update_frame_witness :
    (dbGet (some 1) ⟨[⟨1, "Ann", "a@x", 5⟩, ⟨2, "Bob", "b@x", 6⟩], 3⟩ =
      some ⟨1, "Ann", "a@x", 5⟩) ∧
    (∀ r2 ∈ (Store.mk [⟨1, "Ann", "a@x", 5⟩, ⟨2, "Bob", "b@x", 6⟩] 3).rows,
      r2.id = 1 ∨ r2.email ≠ "a2@x") ∧
    (∃ st1, updateUser (some 1) ⟨"Anna", "a2@x"⟩
        ⟨[⟨1, "Ann", "a@x", 5⟩, ⟨2, "Bob", "b@x", 6⟩], 3⟩ =
        .ok (some ⟨some 1, "Anna", "a2@x", some 5⟩, st1) ∧
      dbGet (some 1) st1 = some ⟨1, "Anna", "a2@x", 5⟩ ∧
      st1.nextId = 3 ∧ st1.rows.length = 2 ∧
      (∀ j : Int, j ≠ 1 → dbGet (some j) st1 =
        dbGet (some j) ⟨[⟨1, "Ann", "a@x", 5⟩, ⟨2, "Bob", "b@x", 6⟩], 3⟩)) ∧
    (dbGet (some 7) ⟨[⟨1, "Ann", "a@x", 5⟩, ⟨2, "Bob", "b@x", 6⟩], 3⟩ =
      none) ∧
    updateUser (some 7) ⟨"Anna", "a@x"⟩
        ⟨[⟨1, "Ann", "a@x", 5⟩, ⟨2, "Bob", "b@x", 6⟩], 3⟩ =
      .ok (none, ⟨[⟨1, "Ann", "a@x", 5⟩, ⟨2, "Bob", "b@x", 6⟩], 3⟩) :=
  ⟨by decide, by decide,
    (update_frame ⟨[⟨1, "Ann", "a@x", 5⟩, ⟨2, "Bob", "b@x", 6⟩], 3⟩ 1
      ⟨"Anna", "a2@x"⟩).1 ⟨1, "Ann", "a@x", 5⟩ (by decide) (by decide),
    by decide,
    (update_frame ⟨[⟨1, "Ann", "a@x", 5⟩, ⟨2, "Bob", "b@x", 6⟩], 3⟩ 7
      ⟨"Anna", "a@x"⟩).2 (by decide)⟩

/-- Inversion of a successful create: the email was fresh, the returned
record carries the assigned id and no timestamp, and the new row is
appended with the store's default `created_at`. -/
theorem createUser_ok_inv {now : Nat} {input : UserInput} {st : Store}
    {u : User} {st1 : Store}
    (h : createUser now input st = .ok (u, st1)) :
    st.rows.any (fun r => r.email == input.email) = false ∧
    u = ⟨some st.nextId, input.name, input.email, none⟩ ∧
    st1 = ⟨st.rows ++ [⟨st.nextId, input.name, input.email, now⟩],
      st.nextId + 1⟩ := by
  simp only [createUser, dbInsert] at h
  by_cases hc : st.rows.any (fun r => r.email == input.email) = true
  · simp [hc] at h
  · have hc2 : st.rows.any (fun r => r.email == input.email) = false := by
      simpa using hc
    simp only [hc2, Bool.false_eq_true, if_false, reduceIte,
      Except.ok.injEq, Prod.mk.injEq] at h
    exact ⟨hc2, h.1.symm, h.2.symm⟩

/-- C6 — list ordering: the empty store lists as the empty sequence, and
after three successful creates at strictly increasing timestamps
t1 < t2 < t3, `getAllUsers` returns the three records newest-first. -/
theorem list_orders_newest_first (t1 t2 t3 : Nat)
    (n1 e1 n2 e2 n3 e3 : String) (u1 u2 u3 : User) (s1 s2 s3 : Store)
    (h12 : t1 < t2) (h23 : t2 < t3)
    (hc1 : createUser t1 ⟨n1, e1⟩ Store.init = .ok (u1, s1))
    (hc2 : createUser t2 ⟨n2, e2⟩ s1 = .ok (u2, s2))
    (hc3 : createUser t3 ⟨n3, e3⟩ s2 = .ok (u3, s3)) :
    getAllUsers Store.init = [] ∧
    getAllUsers s3 =
      [⟨some 3, n3, e3, some t3⟩, ⟨some 2, n2, e2, some t2⟩,
        ⟨some 1, n1, e1, some t1⟩] := by
  refine ⟨rfl, ?_⟩
  obtain ⟨ha1, hu1, hs1⟩ := createUser_ok_inv hc1
  subst hs1
  obtain ⟨ha2, hu2, hs2⟩ := createUser_ok_inv hc2
  subst hs2
  obtain ⟨ha3, hu3, hs3⟩ := createUser_ok_inv hc3
  subst hs3
  have hn32 : ¬ t3 < t2 := by omega
  have hn31 : ¬ t3 < t1 := by omega
  have hn21 : ¬ t2 < t1 := by omega
  simp [getAllUsers, dbAll, sortDesc, insertDesc, hn32, hn31, hn21,
    Row.toUser, Store.init]

/-- Witness for C6: three creates at times 1 < 2 < 3 with distinct emails. -/
theorem list_orders_newest_first_witness :
    (1 : Nat) < 2 ∧ (2 : Nat) < 3 ∧
    createUser 1 ⟨"A", "a@x"⟩ Store.init =
      .ok (⟨some 1, "A", "a@x", none⟩, ⟨[⟨1, "A", "a@x", 1⟩], 2⟩) ∧
    createUser 2 ⟨"B", "b@x"⟩ ⟨[⟨1, "A", "a@x", 1⟩], 2⟩ =
      .ok (⟨some 2, "B", "b@x", none⟩,
        ⟨[⟨1, "A", "a@x", 1⟩, ⟨2, "B", "b@x", 2⟩], 3⟩) ∧
    createUser 3 ⟨"C", "c@x"⟩ ⟨[⟨1, "A", "a@x", 1⟩, ⟨2, "B", "b@x", 2⟩], 3⟩ =
      .ok (⟨some 3, "C", "c@x", none⟩,
        ⟨[⟨1, "A", "a@x", 1⟩, ⟨2, "B", "b@x", 2⟩, ⟨3, "C", "c@x", 3⟩], 4⟩) ∧
    (getAllUsers Store.init = [] ∧
      getAllUsers ⟨[⟨1, "A", "a@x", 1⟩, ⟨2, "B", "b@x", 2⟩,
          ⟨3, "C", "c@x", 3⟩], 4⟩ =
        [⟨some 3, "C", "c@x", some 3⟩, ⟨some 2, "B", "b@x", some 2⟩,
          ⟨some 1, "A", "a@x", some 1⟩]) :=
  ⟨by decide, by decide, rfl, rfl, rfl,
    list_orders_newest_first 1 2 3 "A" "a@x" "B" "b@x" "C" "c@x"
      ⟨some 1, "A", "a@x", none⟩ ⟨some 2, "B", "b@x", none⟩
      ⟨some 3, "C", "c@x", none⟩ ⟨[⟨1, "A", "a@x", 1⟩], 2⟩
      ⟨[⟨1, "A", "a@x", 1⟩, ⟨2, "B", "b@x", 2⟩], 3⟩
      ⟨[⟨1, "A", "a@x", 1⟩, ⟨2, "B", "b@x", 2⟩, ⟨3, "C", "c@x", 3⟩], 4⟩
      (by decide) (by decide) rfl rfl rfl⟩

/-- Appending a freshly-numbered row with an unused email preserves both
store invariants. -/
theorem appendRow_pres (now : Nat) (n e : String) (st : Store)
    (hinv : storeInv st) (hu : emailsUnique st)
    (hfresh : st.rows.any (fun r => r.email == e) = false) :
    storeInv ⟨st.rows ++ [⟨st.nextId, n, e, now⟩], st.nextId + 1⟩ ∧
    emailsUnique ⟨st.rows ++ [⟨st.nextId, n, e, now⟩], st.nextId + 1⟩ := by
  obtain ⟨hpos, hlt, hids⟩ := hinv
  have hfr : ∀ r ∈ st.rows, r.email ≠ e := by
    intro r hr
    simpa using List.any_eq_false.mp hfresh r hr
  refine ⟨⟨by show (0 : Int) < st.nextId + 1; omega, ?_, ?_⟩, ?_⟩
  · intro r hr
    show r.id < st.nextId + 1
    rcases List.mem_append.mp hr with h | h
    · have := hlt r h
      omega
    · have hr2 : r = ⟨st.nextId, n, e, now⟩ := by simpa using h
      rw [hr2]
      exact lt_add_one _
  · rw [List.pairwise_append]
    refine ⟨hids, List.pairwise_singleton _ _, ?_⟩
    intro a ha b hb
    have hb2 : b = ⟨st.nextId, n, e, now⟩ := by simpa using hb
    rw [hb2]
    exact ne_of_lt (hlt a ha)
  · simp only [emailsUnique]
    rw [List.pairwise_append]
    refine ⟨hu, List.pairwise_singleton _ _, ?_⟩
    intro a ha b hb
    have hb2 : b = ⟨st.nextId, n, e, now⟩ := by simpa using hb
    rw [hb2]
    exact hfr a ha

/-- Rewriting the name and email of the rows with a given id, when the new
email collides with no other row, preserves both store invariants. -/
theorem updateRows_pres (i : Int) (n e : String) (st : Store)
    (hinv : storeInv st) (hu : emailsUnique st)
    (hclf : ∀ r ∈ st.rows, r.id = i ∨ r.email ≠ e) :
    storeInv ⟨st.rows.map
        (fun r => if r.id == i then ⟨r.id, n, e, r.created_at⟩ else r),
      st.nextId⟩ ∧
    emailsUnique ⟨st.rows.map
        (fun r => if r.id == i then ⟨r.id, n, e, r.created_at⟩ else r),
      st.nextId⟩ := by
  obtain ⟨hpos, hlt, hids⟩ := hinv
  refine ⟨⟨hpos, ?_, ?_⟩, ?_⟩
  · intro r hr
    rcases List.mem_map.mp hr with ⟨x, hx, rfl⟩
    have := hlt x hx
    by_cases hxi : x.id = i <;> simp [hxi] <;> omega
  · rw [List.pairwise_map]
    refine List.Pairwise.imp ?_ hids
    intro a b hab
    by_cases hai : a.id = i <;> by_cases hbi : b.id = i <;>
      simp [hai, hbi] <;> omega
  · simp only [emailsUnique]
    rw [List.pairwise_map]
    refine List.Pairwise.imp_of_mem ?_ (hu.and hids)
    intro a b ha hb hab
    obtain ⟨hem, hid⟩ := hab
    by_cases hai : a.id = i <;> by_cases hbi : b.id = i
    · exact absurd (hai.trans hbi.symm) hid
    · rcases hclf b hb with h | h
      · exact absurd h hbi
      · simp [hai, hbi]
        exact fun hh => h hh.symm
    · rcases hclf a ha with h | h
      · exact absurd h hai
      · simp [hai, hbi]
        exact h
    · simp [hai, hbi]
      exact hem

/-- Inversion of a successful update: the resulting store is either the
input store unchanged, or the input store with the rows of the targeted id
rewritten under a no-collision condition. -/
theorem updateUser_ok_inv {uid : Option Int} {input : UserInput} {st : Store}
    {out : Option User × Store}
    (h : updateUser uid input st = .ok out) :
    out.2 = st ∨
    ∃ i, uid = some i ∧ (∀ r ∈ st.rows, r.id = i ∨ r.email ≠ input.email) ∧
      out.2 = ⟨st.rows.map (fun r =>
          if r.id == i then ⟨r.id, input.name, input.email, r.created_at⟩
          else r),
        st.nextId⟩ := by
  cases uid with
  | none =>
    left
    simp only [updateUser, dbUpdate] at h
    have h2 : (getUserById none st, st) = out := by simpa using h
    exact (congrArg Prod.snd h2).symm
  | some i =>
    simp only [updateUser, dbUpdate] at h
    split at h
    · exact absurd h (by simp)
    · rename_i st1 heq
      have hout : (getUserById (some i) st1, st1) = out := by simpa using h
      split at heq
      · split at heq
        · exact absurd heq (by simp)
        · rename_i hcl
          right
          have hst1 : Store.mk (st.rows.map (fun r =>
              if r.id == i then ⟨r.id, input.name, input.email, r.created_at⟩
              else r)) st.nextId = st1 := by simpa using heq
          refine ⟨i, rfl, ?_, ?_⟩
          · intro r hr
            have hrf : ∀ x ∈ st.rows, ¬x.id = i → ¬x.email = input.email := by
              simpa using hcl
            by_cases hri : r.id = i
            · exact Or.inl hri
            · exact Or.inr (hrf r hr hri)
          · rw [← congrArg Prod.snd hout]
            exact hst1.symm
      · left
        have hst1 : st = st1 := by simpa using heq
        rw [← congrArg Prod.snd hout]
        exact hst1.symm

/-- The POST route preserves both store invariants. -/
theorem routerPost_pres (now : Nat) (b : ReqBody) (st : Store)
    (h : storeInv st ∧ emailsUnique st) :
    storeInv (routerPost now b st).store ∧
    emailsUnique (routerPost now b st).store := by
  by_cases hv : bodyValid b = true
  · cases hc : createUser now ⟨b.name.getD "", b.email.getD ""⟩ st with
    | error e =>
      cases e <;> simp [routerPost, hv, hc, JsError.messageIncludesUnique] <;>
        exact h
    | ok p =>
      obtain ⟨u, st1⟩ := p
      obtain ⟨hany, hu1, hst1⟩ := createUser_ok_inv hc
      have hpres := appendRow_pres now (b.name.getD "") (b.email.getD "") st
        h.1 h.2 hany
      simp only [routerPost, hv, if_true, hc]
      rw [hst1]
      exact hpres
  · have hvf : bodyValid b = false := by simpa using hv
    simp only [routerPost, hvf, Bool.false_eq_true, if_false, reduceIte]
    exact h

/-- The PUT route preserves both store invariants. -/
theorem routerPut_pres (idParam : String) (b : ReqBody) (st : Store)
    (h : storeInv st ∧ emailsUnique st) :
    storeInv (routerPut idParam b st).store ∧
    emailsUnique (routerPut idParam b st).store := by
  by_cases hv : bodyValid b = true
  · cases hc : updateUser (jsParseInt idParam)
        ⟨b.name.getD "", b.email.getD ""⟩ st with
    | error e =>
      cases e <;> simp [routerPut, hv, hc, JsError.messageIncludesUnique] <;>
        exact h
    | ok p =>
      obtain ⟨u?, st1⟩ := p
      have hst : st1 = st ∨
          ∃ i, jsParseInt idParam = some i ∧
            (∀ r ∈ st.rows, r.id = i ∨ r.email ≠ b.email.getD "") ∧
            st1 = ⟨st.rows.map (fun r =>
                if r.id == i then
                  ⟨r.id, b.name.getD "", b.email.getD "", r.created_at⟩
                else r),
              st.nextId⟩ := updateUser_ok_inv hc
      have hgoal : storeInv st1 ∧ emailsUnique st1 := by
        rcases hst with h1 | ⟨i, hi, hnc, h1⟩
        · rw [h1]
          exact h
        · rw [h1]
          exact updateRows_pres i (b.name.getD "") (b.email.getD "") st
            h.1 h.2 hnc
      cases u? with
      | none => simpa [routerPut, hv, hc] using hgoal
      | some u => simpa [routerPut, hv, hc] using hgoal
  · have hvf : bodyValid b = false := by simpa using hv
    simp only [routerPut, hvf, Bool.false_eq_true, if_false, reduceIte]
    exact h

/-- Every router operation preserves both store invariants. -/
theorem applyOp_pres (st : Store) (op : Op)
    (h : storeInv st ∧ emailsUnique st) :
    storeInv (applyOp st op) ∧ emailsUnique (applyOp st op) := by
  cases op with
  | create now b => exact routerPost_pres now b st h
  | update s b => exact routerPut_pres s b st h
  | delete s => exact h

/-- C3 — in every state reachable from the initialized empty store by any
sequence of create, update and delete requests, no two records share an
email (and the structural id invariant holds as well). -/
theorem reachable_emails_unique (ops : List Op) :
    emailsUnique (runOps ops) := by
  have main : ∀ l : List Op, ∀ st : Store,
      storeInv st ∧ emailsUnique st →
      storeInv (l.foldl applyOp st) ∧ emailsUnique (l.foldl applyOp st) := by
    intro l
    induction l with
    | nil => exact fun st h => h
    | cons op rest ih =>
      intro st h
      exact ih (applyOp st op) (applyOp_pres st op h)
  exact (main ops Store.init ⟨by decide, by decide⟩).2

end TsSimpleCrud
